import Mathlib

/-!
Verification development for a read-only filesystem adapter over a flat,
key-addressed blob store.  The backing store is modelled as a finite list of
key/object pairs (kept in the store's listing order, which real buckets keep
lexicographic) together with per-operation fault flags used to model
backing-store failures.  Every filesystem operation is translated as an
executable function returning its Go result values, the updated handle state,
and a trace of the store calls it issued.
-/

namespace BlobFs

/-- Bytes of an object's content are modelled as natural numbers. -/
abbrev Byte := Nat

/-- A stored object: its content bytes and its modification time. -/
structure BlobObject where
  content : List Byte
  modTime : Int
deriving DecidableEq

/-- Object attributes as returned by the store's attribute query
(`blob.Attributes`): size and modification time. -/
structure Attrs where
  size : Int
  modTime : Int
deriving DecidableEq

/-- The zero value `blob.Attributes{}`: size 0, zero modification time. -/
def zeroAttrs : Attrs := ⟨0, 0⟩

/-- An error reported by a backing-store primitive: either an injected fault
(network, permission, ...) or "no such key". -/
inductive StoreErr where
  | fault
  | keyNotFound
deriving DecidableEq

/-- The backing bucket: a finite key/object map held in listing order, plus
fault flags that make the corresponding store primitive fail. -/
structure Bucket where
  objects : List (String × BlobObject)
  existsFault : Bool := false
  listFault : Bool := false
  attrsFault : Bool := false
  readFault : Bool := false
deriving DecidableEq

/-- One call issued to the backing store (for round-trip accounting). -/
inductive StoreCall where
  | existsQ (key : String)
  | listQ (pre : String)
  | attrsQ (key : String)
  | readQ (key : String)
  | listOpen (pre : String)
deriving DecidableEq

/-- The sequence of store calls an operation issued. -/
abbrev Trace := List StoreCall

/-- Boolean list-prefix test on character lists. -/
def listIsPre : List Char → List Char → Bool
  | [], _ => true
  | _ :: _, [] => false
  | a :: as, b :: bs => a = b && listIsPre as bs

/-- `strStartsWith p s` is Go's `strings.HasPrefix(s, p)`. -/
def strStartsWith (p s : String) : Bool := listIsPre p.data s.data

/-- `strEndsWith suf s` is Go's `strings.HasSuffix(s, suf)`. -/
def strEndsWith (suf s : String) : Bool := listIsPre suf.data.reverse s.data.reverse

/-- Exact-key lookup in the bucket's key/object map. -/
def Bucket.lookup (b : Bucket) (k : String) : Option BlobObject :=
  (b.objects.find? fun p => p.1 == k).map Prod.snd

/-- Whether an object exists under the exact key. -/
def Bucket.hasKey (b : Bucket) (k : String) : Bool := (b.lookup k).isSome

/-- The attributes of a stored object (size is the content's byte length). -/
def objAttrs (o : BlobObject) : Attrs := ⟨(o.content.length : Int), o.modTime⟩

/-- `bucket.Exists(ctx, key)`: Go-style pair of result and error; a fault
yields `(false, err)`. -/
def Bucket.existsOp (b : Bucket) (k : String) : Bool × Option StoreErr :=
  if b.existsFault then (false, some .fault) else (b.hasKey k, none)

/-- `bucket.Attributes(ctx, key)`: `(nil, err)` on fault or missing key. -/
def Bucket.attrsOp (b : Bucket) (k : String) : Option Attrs × Option StoreErr :=
  if b.attrsFault then (none, some .fault)
  else
    match b.lookup k with
    | some o => (some (objAttrs o), none)
    | none => (none, some .keyNotFound)

/-- `bucket.ReadAll(ctx, key)`: the full content, or an error. -/
def Bucket.readAllOp (b : Bucket) (k : String) : Except StoreErr (List Byte) :=
  if b.readFault then .error .fault
  else
    match b.lookup k with
    | some o => .ok o.content
    | none => .error .keyNotFound

/-- Delimiter grouping of one listed key: when the remainder of `k` after the
listing's leading string contains the delimiter `/`, the key is collapsed to
the synthetic directory entry ending in `/`. -/
def groupKey (pre k : String) : String :=
  let rest := k.data.drop pre.data.length
  if rest.any (· = '/') then ⟨pre.data ++ rest.takeWhile (· ≠ '/') ++ ['/']⟩ else k

/-- Collapse adjacent duplicates (collapsed directory entries coming from
consecutive keys of a sorted listing are adjacent). -/
def dedupAdj : List String → List String
  | [] => []
  | [s] => [s]
  | a :: b :: rest => if a = b then dedupAdj (b :: rest) else a :: dedupAdj (b :: rest)

/-- The full delimiter-bounded listing for a leading string `pre`: all keys
starting with `pre`, grouped at the first `/` after `pre`, duplicates
collapsed. -/
def Bucket.groupedList (b : Bucket) (pre : String) : List String :=
  dedupAdj (((b.objects.map Prod.fst).filter fun k => strStartsWith pre k).map (groupKey pre))

/-- `bucket.ListPage(ctx, FirstPageToken, 1, opts)`: the first page (size 1)
of the delimiter-bounded listing, or an error on fault. -/
def Bucket.listPageOp (b : Bucket) (pre : String) : List String × Option StoreErr :=
  if b.listFault then ([], some .fault) else ((b.groupedList pre).take 1, none)

/-- The `blobFile` handle state: path, lazily cached attributes, the eagerly
or lazily recorded directory kind, lazily fetched content, the read/seek
offset, and the directory iterator (its remaining entries once created). -/
structure BlobFile where
  name : String
  attrs : Option Attrs := none
  isDir : Bool := false
  contents : Option (List Byte) := none
  offset : Int := 0
  iter : Option (List String) := none
deriving DecidableEq

/-- The kind carried in a `fs.PathError`'s `Err` field. -/
inductive ErrKind where
  | notExist
  | storeErr (e : StoreErr)
deriving DecidableEq

/-- Go's `fs.PathError`: operation, path and underlying error kind. -/
structure PathError where
  op : String
  path : String
  err : ErrKind
deriving DecidableEq

/-- `(*blobFS).exists(name)`: first the exact-key probe; when that reports
true the probe's error (if any) rides along; otherwise a one-page
delimiter-bounded listing with the name as its leading string decides, its
error replacing the probe's. -/
def fsExists (b : Bucket) (name : String) : (Bool × Option StoreErr) × Trace :=
  match b.existsOp name with
  | (true, err) => ((true, err), [.existsQ name])
  | (false, _eFirst) =>
    match b.listPageOp name with
    | (_r, some e) => ((false, some e), [.existsQ name, .listQ name])
    | (r, none) => ((decide (0 < r.length), none), [.existsQ name, .listQ name])

/-- `(*blobFS).Open(name)`: `"."` returns a root handle with no store call;
otherwise the `exists` probe decides, with the non-existence check performed
before the error check. -/
def fsOpen (b : Bucket) (name : String) : Except PathError BlobFile × Trace :=
  if name = "." then (.ok { name := "" }, [])
  else
    match fsExists b name with
    | ((false, _err), tr) => (.error ⟨"open", name, .notExist⟩, tr)
    | ((true, some e), tr) => (.error ⟨"open", name, .storeErr e⟩, tr)
    | ((true, none), tr) => (.ok { name := name }, tr)

/-- `(*blobFile).getAttrs()`: return the cached attributes when present;
otherwise probe exact existence (its error only logged), fetch attributes
when it exists (error only logged, the possibly-nil result is stored), and
fall back to the zero attributes when nothing was cached. -/
def getAttrs (bk : Bucket) (f : BlobFile) : (Attrs × BlobFile) × Trace :=
  match f.attrs with
  | some a => ((a, f), [])
  | none =>
    match bk.existsOp f.name with
    | (true, _e1) =>
      match bk.attrsOp f.name with
      | (some a, _e2) => ((a, { f with attrs := some a }), [.existsQ f.name, .attrsQ f.name])
      | (none, _e2) => ((zeroAttrs, { f with attrs := none }), [.existsQ f.name, .attrsQ f.name])
    | (false, _e1) => ((zeroAttrs, f), [.existsQ f.name])

/-- `(*blobFile).Size()`: force attribute resolution, return the size. -/
def fsize (bk : Bucket) (f : BlobFile) : (Int × BlobFile) × Trace :=
  match getAttrs bk f with
  | ((a, f1), tr) => ((a.size, f1), tr)

/-- `(*blobFile).ModTime()`: force attribute resolution, return the time. -/
def fmodTime (bk : Bucket) (f : BlobFile) : (Int × BlobFile) × Trace :=
  match getAttrs bk f with
  | ((a, f1), tr) => ((a.modTime, f1), tr)

/-- The error value a `Stat` call returns: either a wrapped path error or the
raw error of the listing fallback (returned unwrapped by the source). -/
inductive StatErr where
  | pathErr (pe : PathError)
  | rawErr (e : StoreErr)
deriving DecidableEq

/-- `(*blobFile).Stat()`: always re-query attributes (the result, possibly
nil, is stored); on failure fall back to a one-page listing — empty means a
`stat` path error with not-exist, non-empty marks the handle a directory. -/
def fstat (bk : Bucket) (f : BlobFile) : (Option StatErr × BlobFile) × Trace :=
  match bk.attrsOp f.name with
  | (oa, none) => ((none, { f with attrs := oa }), [.attrsQ f.name])
  | (oa, some _e) =>
    match bk.listPageOp f.name with
    | (r, err2) =>
      if r.length = 0 then
        ((some (.pathErr ⟨"stat", f.name, .notExist⟩), { f with attrs := oa }),
          [.attrsQ f.name, .listQ f.name])
      else
        ((err2.map StatErr.rawErr, { f with attrs := oa, isDir := true }),
          [.attrsQ f.name, .listQ f.name])

/-- The value/error pair a `Read` call produces: `bytes n` is `(n, nil)`,
`eofR` is `(0, io.EOF)`, `errR e` is `(0, e)`, and `crash` marks the runtime
panic of slicing the content outside `[0, len]`. -/
inductive ReadRes where
  | bytes (n : Nat)
  | eofR
  | errR (e : StoreErr)
  | crash
deriving DecidableEq

/-- The copy step of `Read` once content is available: evaluate
`contents[offset:]` (a panic when the offset is negative or beyond the
length), copy up to the buffer length, advance the offset, and report
`io.EOF` when zero bytes were copied. -/
def freadCore (bl : Nat) (c : List Byte) (f : BlobFile) : ReadRes × BlobFile :=
  if f.offset < 0 ∨ (c.length : Int) < f.offset then (.crash, f)
  else
    let n := min bl (c.length - f.offset.toNat)
    let f1 := { f with offset := f.offset + (n : Int) }
    if n = 0 then (.eofR, f1) else (.bytes n, f1)

/-- `(*blobFile).Read(buf)`: a nil buffer returns `(0, nil)` untouched; the
content is fetched whole on first need (errors returned, nothing cached);
then the copy step runs.  The buffer is modelled by its nil-ness and length
(`none` is Go's nil slice, `some k` a non-nil slice of length `k`). -/
def fread (bk : Bucket) (f : BlobFile) (buf : Option Nat) : (ReadRes × BlobFile) × Trace :=
  match buf with
  | none => ((.bytes 0, f), [])
  | some bl =>
    match f.contents with
    | some c => (freadCore bl c f, [])
    | none =>
      match bk.readAllOp f.name with
      | .ok c => (freadCore bl c { f with contents := some c }, [.readQ f.name])
      | .error e => ((.errR e, f), [.readQ f.name])

/-- The error of a `Seek` call. -/
inductive SeekErr where
  | invalidWhence
deriving DecidableEq

/-- `(*blobFile).Seek(offset, whence)`: whence 0 stores the offset, 1 adds
it, 2 adds it to `Size()` (which may query the store); anything else is
`(0, invalid whence)`.  No bounds check of any kind is made. -/
def fseek (bk : Bucket) (f : BlobFile) (offset : Int) (whence : Int) :
    ((Int × Option SeekErr) × BlobFile) × Trace :=
  if whence = 0 then (((offset, none), { f with offset := offset }), [])
  else if whence = 1 then
    (((f.offset + offset, none), { f with offset := f.offset + offset }), [])
  else if whence = 2 then
    match fsize bk f with
    | ((sz, f1), tr) => (((sz + offset, none), { f1 with offset := sz + offset }), tr)
  else (((0, some .invalidWhence), f), [])

/-- Helper of `goExt`: walk the reversed characters, accumulating until the
final dot of the last path element (a `/` means no extension). -/
def extAux : List Char → List Char → String
  | [], _ => ""
  | c :: rest, acc =>
    if c = '/' then ""
    else if c = '.' then ⟨c :: acc⟩
    else extAux rest (c :: acc)

/-- Go's `filepath.Ext`: the suffix starting at the final dot of the final
path element, empty when there is none. -/
def goExt (s : String) : String := extAux s.data.reverse []

/-- `(*blobFile).IsDir()`: an extension-bearing name is never a directory
(no store call); `"."` is remapped to `"/"`; a cached directory kind is
trusted; otherwise exact existence (exists means not a directory) and then a
one-page listing (non-empty means directory) decide. -/
def fisDir (bk : Bucket) (f : BlobFile) : Bool × Trace :=
  if goExt f.name ≠ "" then (false, [])
  else
    let name := if f.name = "." then "/" else f.name
    if f.isDir then (true, [])
    else
      match bk.existsOp name with
      | (true, _e) => (false, [.existsQ name])
      | (false, _e) =>
        match bk.listPageOp name with
        | (r, _e2) => (decide (0 < r.length), [.existsQ name, .listQ name])

/-- The iterator-exhaustion sentinel `io.EOF` of `ReadDir`. -/
inductive DirEnd where
  | eofIter
deriving DecidableEq

/-- A directory entry produced by `ReadDir`: a fresh handle on the listed
key, its kind set eagerly from the key's trailing delimiter. -/
def mkEntry (k : String) : BlobFile := { name := k, isDir := strEndsWith "/" k }

/-- The collection loop of `ReadDir`: advance the iterator until exhaustion
(`io.EOF`, suppressed only when `n < 0`) or, when `0 < n`, until `n` entries
are collected; returns the entries, the error, and the iterator's rest. -/
def readDirLoop (n : Int) : List String → List BlobFile → List BlobFile × Option DirEnd × List String
  | [], acc => if n < 0 then (acc, none, []) else (acc, some .eofIter, [])
  | k :: rest, acc =>
    let acc1 := acc ++ [mkEntry k]
    if 0 < n ∧ n ≤ (acc1.length : Int) then (acc1, none, rest)
    else readDirLoop n rest acc1

/-- Go's `strings.TrimPrefix(s, ".")`: drop one leading dot when present. -/
def goTrimDot (s : String) : String :=
  if strStartsWith "." s then ⟨s.data.drop 1⟩ else s

/-- `(*blobFile).ReadDir(n)`: normalise the name to a listing position (trim
a leading dot, append `/` to a non-empty name not ending in one), create the
delimiter-bounded iterator once and keep it on the handle, then run the
collection loop. -/
def freadDir (bk : Bucket) (f : BlobFile) (n : Int) :
    ((List BlobFile × Option DirEnd) × BlobFile) × Trace :=
  let nm0 := goTrimDot f.name
  let nm := if nm0 ≠ "" ∧ strEndsWith "/" nm0 = false then nm0 ++ "/" else nm0
  match f.iter with
  | some it =>
    match readDirLoop n it [] with
    | (res, err, rem) => (((res, err), { f with iter := some rem }), [])
  | none =>
    match readDirLoop n (bk.groupedList nm) [] with
    | (res, err, rem) => (((res, err), { f with iter := some rem }), [.listOpen nm])

/-- Boolean success test on an `Except` result. -/
def isOkB {ε α : Type} : Except ε α → Bool
  | .ok _ => true
  | .error _ => false

instance {ε α : Type} [DecidableEq ε] [DecidableEq α] : DecidableEq (Except ε α) := fun a b =>
  match a, b with
  | .ok x, .ok y =>
    if h : x = y then .isTrue (by rw [h])
    else .isFalse (by intro he; cases he; exact h rfl)
  | .ok _, .error _ => .isFalse (by intro h; cases h)
  | .error _, .ok _ => .isFalse (by intro h; cases h)
  | .error x, .error y =>
    if h : x = y then .isTrue (by rw [h])
    else .isFalse (by intro he; cases he; exact h rfl)

/-- A five-byte object ("hello", modification time 7) used as test data. -/
def objA : BlobObject := ⟨[104, 101, 108, 108, 111], 7⟩

/-- A bucket holding the single object `foo`. -/
def bktFoo : Bucket := { objects := [("foo", objA)] }

/-- A bucket holding `bar`, `baz/bar` and `foo` (listing order). -/
def bktThree : Bucket := { objects := [("bar", objA), ("baz/bar", objA), ("foo", objA)] }

/-- A bucket holding the single object `baz/bar`. -/
def bktBaz : Bucket := { objects := [("baz/bar", objA)] }

/-- An empty bucket. -/
def bktEmpty : Bucket := { objects := [] }

/-- A bucket holding `foo` whose existence and listing probes both fail. -/
def bktFault : Bucket := { objects := [("foo", objA)], existsFault := true, listFault := true }

/-- A fault-free exact-existence probe reports key membership with no error. -/
theorem existsOp_nofault (b : Bucket) (k : String) (hf : b.existsFault = false) :
    b.existsOp k = (b.hasKey k, none) := by
  simp [Bucket.existsOp, hf]

/-- A fault-free one-page listing returns the first grouped entry, no error. -/
theorem listPageOp_nofault (b : Bucket) (p : String) (hl : b.listFault = false) :
    b.listPageOp p = ((b.groupedList p).take 1, none) := by
  simp [Bucket.listPageOp, hl]

/-- On a non-root path, `Open`'s store-call trace is exactly the trace of the
`exists` probe. -/
theorem fsOpen_trace (b : Bucket) (name : String) (hn : name ≠ ".") :
    (fsOpen b name).2 = (fsExists b name).2 := by
  unfold fsOpen
  rw [if_neg hn]
  rcases hx : fsExists b name with ⟨⟨eb, ee⟩, tr⟩
  cases eb
  · rfl
  · cases ee <;> rfl

/-- The `exists` probe always begins with the exact-key existence call. -/
theorem fsExists_trace_head (b : Bucket) (name : String) :
    (fsExists b name).2.head? = some (StoreCall.existsQ name) := by
  unfold fsExists
  rcases he : b.existsOp name with ⟨eb, ee⟩
  cases eb
  · rcases hp : b.listPageOp name with ⟨r, er⟩
    cases er <;> rfl
  · rfl

/-- Claim C1: on a fault-free store, `Open(".")` always succeeds with no
store call, and for every other path `Open` succeeds exactly when an object
exists under the exact key or the single-page delimiter-bounded listing with
the path as its leading string is non-empty; when neither holds it fails
with a Not Found path error (never an I/O error). -/
theorem open_existence_classification (b : Bucket) (name : String)
    (hf : b.existsFault = false) (hl : b.listFault = false) :
    fsOpen b "." = (Except.ok { name := "" }, [])
    ∧ (name ≠ "." →
        fsOpen b name =
          if b.hasKey name then (Except.ok { name := name }, [StoreCall.existsQ name])
          else if 0 < ((b.listPageOp name).1).length then
            (Except.ok { name := name }, [StoreCall.existsQ name, StoreCall.listQ name])
          else (Except.error ⟨"open", name, ErrKind.notExist⟩,
            [StoreCall.existsQ name, StoreCall.listQ name])) := by
  refine ⟨rfl, fun hn => ?_⟩
  unfold fsOpen fsExists
  rw [if_neg hn, existsOp_nofault b name hf, listPageOp_nofault b name hl]
  cases hk : b.hasKey name
  · by_cases hp : 0 < (b.groupedList name).length
    · simp [hp]
    · simp [hp]
  · simp

/-- Witness for C1 at the bucket holding only `foo`, opening `bar`. -/
theorem open_existence_classification_witness :
    fsOpen bktFoo "." = (Except.ok { name := "" }, [])
    ∧ ("bar" ≠ "." →
        fsOpen bktFoo "bar" =
          if bktFoo.hasKey "bar" then (Except.ok { name := "bar" }, [StoreCall.existsQ "bar"])
          else if 0 < ((bktFoo.listPageOp "bar").1).length then
            (Except.ok { name := "bar" }, [StoreCall.existsQ "bar", StoreCall.listQ "bar"])
          else (Except.error ⟨"open", "bar", ErrKind.notExist⟩,
            [StoreCall.existsQ "bar", StoreCall.listQ "bar"])) :=
  open_existence_classification bktFoo "bar" rfl rfl

/-- Claim C2 (refuting evaluation): on a five-byte object, `Seek(10, start)`
drives the offset to 10, beyond the content length 5 (breaking the claimed
invariant), and the following `Read` with a one-byte buffer evaluates
`contents[10:]` and panics instead of reporting end-of-stream. -/
theorem seek_past_end_then_read_crashes :
    ((fseek bktFoo { name := "foo" } 10 0).1.2).offset = 10
    ∧ objA.content.length = 5
    ∧ (fread bktFoo ((fseek bktFoo { name := "foo" } 10 0).1.2) (some 1)).1.1
      = ReadRes.crash := by decide

/-- Claim C3 (refuting evaluation): on the root of a bucket holding `bar`,
`baz/bar` and `foo`, `ReadDir(0)` returns every entry together with the
iterator-exhaustion error `io.EOF` (the code suppresses it only for `n < 0`,
not `n ≤ 0`), while `ReadDir(-1)` returns the same entries with a nil
error. -/
theorem readdir_zero_reports_eof :
    (freadDir bktThree { name := "" } 0).1.1
      = ([mkEntry "bar", mkEntry "baz/", mkEntry "foo"], some DirEnd.eofIter)
    ∧ (freadDir bktThree { name := "" } (-1)).1.1
      = ([mkEntry "bar", mkEntry "baz/", mkEntry "foo"], none) := by decide

/-- Claim C4 (counterexample): `a//b` has an empty segment, yet `Open` makes
both store probes on it, fails with Not Found (not Invalid Path) on an empty
bucket, and even succeeds when an object is stored under that very key. -/
theorem open_invalid_path_not_rejected :
    (fsOpen bktEmpty "a//b").2 = [StoreCall.existsQ "a//b", StoreCall.listQ "a//b"]
    ∧ (fsOpen bktEmpty "a//b").1 = Except.error ⟨"open", "a//b", ErrKind.notExist⟩
    ∧ isOkB (fsOpen { objects := [("a//b", objA)] } "a//b").1 = true := by decide

/-- Claim C4 (amended): `Open` performs no path-validity check at all: every
path other than `"."`, well formed or not, is immediately probed against the
store, the first call being the exact-key existence query. -/
theorem open_probes_store_unvalidated (b : Bucket) (name : String) (hn : name ≠ ".") :
    (fsOpen b name).2.head? = some (StoreCall.existsQ name) := by
  rw [fsOpen_trace b name hn]
  exact fsExists_trace_head b name

/-- Witness for the amended C4 at the invalid path `a//b`. -/
theorem open_probes_store_unvalidated_witness :
    (fsOpen bktEmpty "a//b").2.head? = some (StoreCall.existsQ "a//b") :=
  open_probes_store_unvalidated bktEmpty "a//b" (by decide)

/-- Claim C5 (counterexample): after a successful `Stat` has cached the
attributes of `foo`, a second `Stat` on the same handle still issues an
attribute query to the store. -/
theorem stat_always_requeries :
    ((fstat bktFoo { name := "foo" }).1.2).attrs = some ⟨5, 7⟩
    ∧ (fstat bktFoo { name := "foo" }).1.1 = none
    ∧ (fstat bktFoo ((fstat bktFoo { name := "foo" }).1.2)).2
      = [StoreCall.attrsQ "foo"] := by decide

/-- Claim C5 (amended): once attributes are cached on a handle, `Size` and
`ModTime` return the cached fields with no store call, but `Stat` itself
re-queries the attribute endpoint on every call. -/
theorem cached_attrs_serve_size_modtime (bk : Bucket) (f : BlobFile) (a : Attrs)
    (h : f.attrs = some a) :
    fsize bk f = ((a.size, f), []) ∧ fmodTime bk f = ((a.modTime, f), [])
    ∧ (fstat bk f).2.head? = some (StoreCall.attrsQ f.name) := by
  have hg : getAttrs bk f = ((a, f), []) := by
    unfold getAttrs
    rw [h]
  refine ⟨by unfold fsize; rw [hg], by unfold fmodTime; rw [hg], ?_⟩
  unfold fstat
  rcases ha : bk.attrsOp f.name with ⟨oa, er⟩
  cases er
  · rfl
  · rcases hp : bk.listPageOp f.name with ⟨r, er2⟩
    by_cases hr : r.length = 0 <;> simp [hr]

/-- Witness for the amended C5 on a handle with cached attributes. -/
theorem cached_attrs_serve_size_modtime_witness :
    fsize bktFoo { name := "foo", attrs := some ⟨5, 7⟩ }
      = ((5, { name := "foo", attrs := some ⟨5, 7⟩ }), [])
    ∧ fmodTime bktFoo { name := "foo", attrs := some ⟨5, 7⟩ }
      = ((7, { name := "foo", attrs := some ⟨5, 7⟩ }), [])
    ∧ (fstat bktFoo { name := "foo", attrs := some ⟨5, 7⟩ }).2.head?
      = some (StoreCall.attrsQ "foo") :=
  cached_attrs_serve_size_modtime bktFoo { name := "foo", attrs := some ⟨5, 7⟩ } ⟨5, 7⟩ rfl

/-- Claim C6 (refuting evaluation): when both store probes fail, `Open` of
the stored key `foo` reports Not Found rather than an I/O error, because the
non-existence check runs before the error check and the `exists` probe
returns false alongside its error. -/
theorem open_store_fault_reports_notexist :
    bktFault.hasKey "foo" = true
    ∧ (fsExists bktFault "foo").1 = (false, some StoreErr.fault)
    ∧ (fsOpen bktFault "foo").1 = Except.error ⟨"open", "foo", ErrKind.notExist⟩ := by decide

/-- Claim C7 (counterexample): `Seek(-1, start)` is accepted: the negative
offset is stored on the handle and returned with a nil error instead of
being rejected as an invalid argument. -/
theorem seek_negative_accepted :
    fseek bktFoo { name := "foo" } (-1) 0
      = (((-1, none), { name := "foo", offset := -1 }), []) := by decide

/-- Claim C7 (amended): a `Seek` with an unrecognized anchor fails with the
Invalid Argument error, but a `Seek` whose recomputed offset is negative is
not rejected: a start-anchored seek stores any offset, negative included,
and returns it with no error. -/
theorem seek_whence_validation (bk : Bucket) (f : BlobFile) (off : Int) (w : Int)
    (hw : w ≠ 0 ∧ w ≠ 1 ∧ w ≠ 2) :
    fseek bk f off w = (((0, some SeekErr.invalidWhence), f), [])
    ∧ fseek bk f off 0 = (((off, none), { f with offset := off }), []) := by
  obtain ⟨h0, h1, h2⟩ := hw
  constructor
  · unfold fseek
    rw [if_neg h0, if_neg h1, if_neg h2]
  · rfl

/-- Witness for the amended C7 at anchor 3 and offset -1. -/
theorem seek_whence_validation_witness :
    fseek bktFoo { name := "foo" } (-1) 3
      = (((0, some SeekErr.invalidWhence), { name := "foo" }), [])
    ∧ fseek bktFoo { name := "foo" } (-1) 0
      = (((-1, none), { name := "foo", offset := -1 }), []) :=
  seek_whence_validation bktFoo { name := "foo" } (-1) 3 (by decide)

/-- Claim C8 (counterexample): `Open("baz")` on a bucket holding only
`baz/bar` is classified a directory by the listing probe, yet the returned
handle carries `isDir = false`, and the subsequent `IsDir` reaches its
answer only through two further store calls rather than any cached
classification. -/
theorem open_does_not_record_kind :
    (fsOpen bktBaz "baz").1 = Except.ok { name := "baz" }
    ∧ ({ name := "baz" } : BlobFile).isDir = false
    ∧ fisDir bktBaz { name := "baz" }
      = (true, [StoreCall.existsQ "baz", StoreCall.listQ "baz"]) := by decide

/-- Claim C8 (amended): every handle `Open` returns has no recorded kind
(`isDir = false`), and `IsDir` on such a handle (extension-free, non-root,
no exact key) re-probes the store — the exact-existence call followed by the
one-page listing — returning true exactly when the listing is non-empty. -/
theorem open_handle_kind_unset_isdir_probes (b : Bucket) (name : String) (g : BlobFile)
    (hg : (fsOpen b name).1 = Except.ok g)
    (hext : goExt g.name = "") (hdot : g.name ≠ ".")
    (hf : b.existsFault = false) (hk : b.hasKey g.name = false) :
    g.isDir = false
    ∧ fisDir b g = (decide (0 < ((b.listPageOp g.name).1).length),
        [StoreCall.existsQ g.name, StoreCall.listQ g.name]) := by
  have hdir : g.isDir = false := by
    unfold fsOpen at hg
    by_cases hn : name = "."
    · rw [if_pos hn] at hg
      injection hg with h2
      rw [← h2]
    · rw [if_neg hn] at hg
      rcases he : fsExists b name with ⟨⟨eb, ee⟩, tr⟩
      rw [he] at hg
      cases eb
      · exact Except.noConfusion hg
      · cases ee
        · injection hg with h2
          rw [← h2]
        · exact Except.noConfusion hg
  refine ⟨hdir, ?_⟩
  unfold fisDir
  rw [hext]
  rw [if_neg (by simp)]
  rw [if_neg hdot, hdir]
  rcases hp : b.listPageOp g.name with ⟨r, er⟩
  simp [existsOp_nofault b g.name hf, hk, hp]

/-- Witness for the amended C8 at the directory path `baz`. -/
theorem open_handle_kind_unset_isdir_probes_witness :
    ({ name := "baz" } : BlobFile).isDir = false
    ∧ fisDir bktBaz { name := "baz" }
      = (decide (0 < ((bktBaz.listPageOp "baz").1).length),
        [StoreCall.existsQ "baz", StoreCall.listQ "baz"]) :=
  open_handle_kind_unset_isdir_probes bktBaz "baz" { name := "baz" }
    (by decide) (by decide) (by decide) rfl (by decide)

/-- Claim C9 (counterexample): a `Read` with a non-nil zero-length buffer is
not a no-op: on a handle with unfetched content it issues the content fetch
and returns zero bytes with the `io.EOF` sentinel instead of a nil error. -/
theorem zero_len_buffer_not_noop :
    (fread bktFoo { name := "foo" } (some 0)).1.1 = ReadRes.eofR
    ∧ (fread bktFoo { name := "foo" } (some 0)).2 = [StoreCall.readQ "foo"] := by decide

/-- Claim C9 (amended): only a nil buffer is the claimed no-op, returning
zero bytes, no error, state untouched and no store call; a non-nil
zero-length buffer triggers the content fetch when content is unfetched,
and on fetched in-bounds content returns zero bytes with the end-of-stream
sentinel, the offset unchanged. -/
theorem nil_buffer_read_noop (bk : Bucket) (f g : BlobFile) (c : List Byte)
    (hf : f.contents = none) (hg : g.contents = some c)
    (h0 : 0 ≤ g.offset) (h1 : g.offset ≤ (c.length : Int)) :
    fread bk f none = ((ReadRes.bytes 0, f), [])
    ∧ fread bk g none = ((ReadRes.bytes 0, g), [])
    ∧ (fread bk f (some 0)).2 = [StoreCall.readQ f.name]
    ∧ (fread bk g (some 0)).1.1 = ReadRes.eofR
    ∧ ((fread bk g (some 0)).1.2).offset = g.offset
    ∧ (fread bk g (some 0)).2 = [] := by
  have hc : ¬(g.offset < 0 ∨ (c.length : Int) < g.offset) := by
    push_neg
    exact ⟨h0, h1⟩
  have hcore : freadCore 0 c g
      = (ReadRes.eofR, { g with offset := g.offset + ((0 : Nat) : Int) }) := by
    unfold freadCore
    rw [if_neg hc]
    simp
  have hrg : fread bk g (some 0)
      = ((ReadRes.eofR, { g with offset := g.offset + ((0 : Nat) : Int) }), []) := by
    simp only [fread, hg]
    rw [hcore, hg]
  refine ⟨rfl, rfl, ?_, ?_, ?_, ?_⟩
  · unfold fread
    rw [hf]
    rcases hr : bk.readAllOp f.name with e | c2 <;> rfl
  · rw [hrg]
  · rw [hrg]
    simp
  · rw [hrg]

/-- Witness for the amended C9 on a two-byte cached handle and an unfetched
handle. -/
theorem nil_buffer_read_noop_witness :
    fread bktFoo { name := "foo" } none = ((ReadRes.bytes 0, { name := "foo" }), [])
    ∧ fread bktFoo { name := "foo", contents := some [1, 2] } none
      = ((ReadRes.bytes 0, { name := "foo", contents := some [1, 2] }), [])
    ∧ (fread bktFoo { name := "foo" } (some 0)).2 = [StoreCall.readQ "foo"]
    ∧ (fread bktFoo { name := "foo", contents := some [1, 2] } (some 0)).1.1 = ReadRes.eofR
    ∧ ((fread bktFoo { name := "foo", contents := some [1, 2] } (some 0)).1.2).offset
      = ({ name := "foo", contents := some [1, 2] } : BlobFile).offset
    ∧ (fread bktFoo { name := "foo", contents := some [1, 2] } (some 0)).2 = [] :=
  nil_buffer_read_noop bktFoo { name := "foo" } { name := "foo", contents := some [1, 2] }
    [1, 2] rfl rfl (by decide) (by decide)

/-- Claim C10: `Size` and `ModTime` carry no error channel; on a handle
whose key has no exact object (a directory, say) they return size zero and
the zero modification time, leave the handle unchanged (the failed
resolution is not cached), and each call issues the existence query to the
store anew. -/
theorem size_modtime_no_exact_object (bk : Bucket) (f : BlobFile)
    (ha : f.attrs = none) (hk : bk.hasKey f.name = false) (hf : bk.existsFault = false) :
    fsize bk f = ((0, f), [StoreCall.existsQ f.name])
    ∧ fmodTime bk f = ((0, f), [StoreCall.existsQ f.name]) := by
  have hg : getAttrs bk f = ((zeroAttrs, f), [StoreCall.existsQ f.name]) := by
    unfold getAttrs
    rw [ha, existsOp_nofault bk f.name hf, hk]
  exact ⟨by unfold fsize; rw [hg]; rfl, by unfold fmodTime; rw [hg]; rfl⟩

/-- Witness for C10 at the absent key `nope`. -/
theorem size_modtime_no_exact_object_witness :
    fsize bktFoo { name := "nope" } = ((0, { name := "nope" }), [StoreCall.existsQ "nope"])
    ∧ fmodTime bktFoo { name := "nope" }
      = ((0, { name := "nope" }), [StoreCall.existsQ "nope"]) :=
  size_modtime_no_exact_object bktFoo { name := "nope" } rfl (by decide) rfl

end BlobFs
